import Mathlib

/-!
Verification of the pulse rigging toolkit (maya-pulse).

This file gives a shallow embedding of the parts of the repository that the
claims concern:

* src/pulse/scripts/pulse/events.py        -- callback and event dispatchers
* src/pulse/scripts/pulse/views/core.py    -- BlueprintUIModel and buttonCommand
* src/pulse/scripts/pulse/nodes.py         -- node and matrix utilities
* src/pulse/scripts/pulse/actions/constraints/constrain/simple_constrain_pulseaction.py

Host-application (Maya) operations that the code calls are modelled by small
explicit state transitions: attribute lock flags, undo-chunk trace operations,
callback registration tables, and affine transform matrices over ℚ.
-/

set_option maxHeartbeats 1000000

/-! ## Python-level error values -/

/-- Exceptions that the embedded code can raise.  attributeError models a
Python AttributeError from looking up a missing attribute on a class
instance; buildActionError models pulse.BuildActionError. -/
inductive PyExn where
  | attributeError (cls attr : String)
  | buildActionError (msg : String)
  deriving DecidableEq, Repr

/-! ## events.py : BlueprintChangeEvents attribute-changed callback (C3)

BlueprintChangeEvents._onBlueprintAttrChanged (events.py lines 218-220):

    def _onBlueprintAttrChanged(self, changeType, srcPlug, dstPlug, clientData):
        if srcPlug.partialName() == 'pyMetaData':
            self.onBlueprintChanged(pm.PyNode(srcPlug.node()))
-/

/-- A Maya MPlug as seen by the attribute-changed callback.  shortName models
the result of srcPlug.partialName(); node models the node that owns the plug. -/
structure MPlug where
  shortName : String
  node : String
  deriving DecidableEq, Repr

/-- Embedding of BlueprintChangeEvents._onBlueprintAttrChanged.  The Event
object is a list of callbacks; we record the dispatched notifications (the
nodes passed to onBlueprintChanged) in a list, so firing the event appends
the source plug node. -/
def onBlueprintAttrChanged (srcPlug : MPlug) (fired : List String) : List String :=
  if srcPlug.shortName = "pyMetaData" then fired ++ [srcPlug.node] else fired

/-! ## events.py : BlueprintLifecycleEvents (C2)

BlueprintLifecycleEvents (events.py lines 146-166) registers a node-added and
a node-removed callback for nodes of type "network".  The node-removed
callback fires onBlueprintDeleted immediately when the node is a Blueprint
node; the node-added callback defers (cmds.evalDeferred with evaluateNext) a
check that fires onBlueprintCreated on the next deferred-evaluation tick if
the node is a Blueprint node at that point.
-/

/-- Host events delivered to a registered BlueprintLifecycleEvents dispatcher:
the node-added callback, the node-removed callback, and the deferred
evaluation tick that runs all pending cmds.evalDeferred closures. -/
inductive LifeEvent where
  | nodeAdded (node : String)
  | nodeRemoved (node : String)
  | deferredTick
  deriving DecidableEq, Repr

/-- State of the BlueprintLifecycleEvents dispatcher: the queue of
_onNodeAddedDeferred closures pending for the next tick, and the
notifications fired so far on each Event. -/
structure LifeState where
  deferred : List String
  firedCreated : List String
  firedDeleted : List String
  deriving DecidableEq, Repr

def initialLifeState : LifeState := ⟨[], [], []⟩

/-- One step of the dispatcher.  isBlueprintNode is the scene predicate
pulse.core.Blueprint.isBlueprintNode evaluated at the time of the step
(the scene can change between steps, so each step carries its own
predicate).

  * nodeAdded queues the deferred check (_onNodeAdded, lines 153-157);
  * nodeRemoved fires onBlueprintDeleted right away when the node is a
    Blueprint node (_onNodeRemoved, lines 164-166);
  * deferredTick runs every queued _onNodeAddedDeferred closure, firing
    onBlueprintCreated for each queued node that is a Blueprint node at
    that point (lines 159-162). -/
def lifeStep (isBlueprintNode : String → Bool) : LifeEvent → LifeState → LifeState
  | .nodeAdded n, st => { st with deferred := st.deferred ++ [n] }
  | .nodeRemoved n, st =>
      if isBlueprintNode n then { st with firedDeleted := st.firedDeleted ++ [n] } else st
  | .deferredTick, st =>
      { st with
        deferred := []
        firedCreated := st.firedCreated ++ st.deferred.filter isBlueprintNode }

/-- Run a trace of host events from the initial state; each event is paired
with the scene predicate in effect when it is delivered. -/
def runLifeTrace (trace : List ((String → Bool) × LifeEvent)) : LifeState :=
  trace.foldl (fun st p => lifeStep p.1 p.2 st) initialLifeState

/-! ## views/core.py : buttonCommand (C4)

buttonCommand (views/core.py lines 24-39):

    def buttonCommand(func, *args, **kwargs):
        def wrapper():
            cmds.undoInfo(openChunk=True)
            try:
                func(*args, **kwargs)
            except Exception as e:
                cmds.error(e)
            finally:
                cmds.undoInfo(closeChunk=True)
        return wrapper
-/

/-- Operations recorded in the undo-command trace: opening and closing an
undo chunk via cmds.undoInfo, and a cmds.error call (which in Maya prints
the error and raises RuntimeError; the finally block still runs). -/
inductive CmdOp where
  | undoOpenChunk
  | undoCloseChunk
  | cmdsError (msg : String)
  | hostOp (name : String)
  deriving DecidableEq, Repr

/-- The behavior of the wrapped function for one invocation: the trace of
host operations it performs and whether it returns normally or raises an
exception (carrying the exception message). -/
structure FuncBehavior where
  trace : List CmdOp
  result : Except String Unit

/-- Embedding of the wrapper closure returned by buttonCommand.  It opens an
undo chunk, runs func, and on exception calls cmds.error (which itself
raises, so the wrapper re-raises after the finally clause); the finally
clause closes the chunk on every path. -/
def buttonCommandWrapper (func : FuncBehavior) : List CmdOp × Except String Unit :=
  match func.result with
  | .ok _ =>
      (CmdOp.undoOpenChunk :: func.trace ++ [CmdOp.undoCloseChunk], Except.ok ())
  | .error e =>
      (CmdOp.undoOpenChunk :: func.trace ++ [CmdOp.cmdsError e, CmdOp.undoCloseChunk],
        Except.error e)

/-! ## simple_constrain_pulseaction.py : SimpleConstrainAction.validate (C9)

    def validate(self):
        if not self.leader:
            raise pulse.BuildActionError("leader must be set")
        if not self.follower:
            raise pulse.BuildActionError("follower must be set")
-/

/-- The attributes of a SimpleConstrainAction that validate reads.  An attr
value is none when unset (Python None) or some name; the empty string is
also falsy in Python, matching an unset node reference. -/
structure SimpleConstrainAction where
  leader : Option String
  follower : Option String
  deriving DecidableEq, Repr

/-- Python truthiness of an optional node reference: None and the empty
string are falsy. -/
def pyTruthy : Option String → Bool
  | none => false
  | some s => !s.isEmpty

/-- Embedding of SimpleConstrainAction.validate.  The method only reads
self.leader and self.follower and raises BuildActionError, so it is a pure
function of the action producing either an exception or unit. -/
def SimpleConstrainAction.validate (a : SimpleConstrainAction) : Except PyExn Unit :=
  if !pyTruthy a.leader then Except.error (PyExn.buildActionError "leader must be set")
  else if !pyTruthy a.follower then Except.error (PyExn.buildActionError "follower must be set")
  else Except.ok ()

/-! ## events.py : MayaCallbackEvents subscriber bookkeeping (C10)

MayaCallbackEvents (events.py lines 44-113).  The dispatcher keeps
_areMayaCallbacksRegistered, _callbackIDs and _subscribers.  The subclass
hook _addMayaCallbacks registers some number of callbacks with the host and
returns their IDs; we model the host side with a list of currently
registered callback IDs and a fresh-ID counter, with each registration
adding numCallbacks fresh IDs.
-/

/-- The state of a MayaCallbackEvents dispatcher together with the host
registration table. -/
structure MayaCallbackState where
  areMayaCallbacksRegistered : Bool
  callbackIDs : List Nat
  subscribers : List Nat
  hostCallbacks : List Nat
  nextCallbackID : Nat
  deriving DecidableEq, Repr

/-- Freshly constructed dispatcher (events.py lines 54-61): no callbacks
registered, empty ID list, no subscribers. -/
def initialCallbackState : MayaCallbackState := ⟨false, [], [], [], 0⟩

/-- Embedding of _registerMayaCallbacks (lines 66-74): does nothing when
already registered, otherwise stores the IDs returned by _addMayaCallbacks,
which registers numCallbacks fresh callbacks with the host. -/
def registerMayaCallbacks (numCallbacks : Nat) (st : MayaCallbackState) : MayaCallbackState :=
  if st.areMayaCallbacksRegistered then st
  else
    let newIDs := (List.range numCallbacks).map (fun k => st.nextCallbackID + k)
    { st with
      areMayaCallbacksRegistered := true
      callbackIDs := newIDs
      hostCallbacks := st.hostCallbacks ++ newIDs
      nextCallbackID := st.nextCallbackID + numCallbacks }

/-- Embedding of _unregisterMayaCallbacks (lines 84-93): when registered,
removes every stored callback ID from the host (api.MMessage.removeCallback)
and clears the stored ID list. -/
def unregisterMayaCallbacks (st : MayaCallbackState) : MayaCallbackState :=
  if st.areMayaCallbacksRegistered then
    { st with
      areMayaCallbacksRegistered := false
      hostCallbacks := st.callbackIDs.foldl (fun h cbId => h.erase cbId) st.hostCallbacks
      callbackIDs := [] }
  else st

/-- Embedding of notifySubscriberAdded (lines 95-103): append the subscriber
when absent, then register callbacks when the subscriber list is
non-empty. -/
def notifySubscriberAdded (numCallbacks : Nat) (st : MayaCallbackState)
    (subscriber : Nat) : MayaCallbackState :=
  let st1 :=
    if subscriber ∈ st.subscribers then st
    else { st with subscribers := st.subscribers ++ [subscriber] }
  if st1.subscribers.isEmpty then st1 else registerMayaCallbacks numCallbacks st1

/-- Embedding of notifySubscriberRemoved (lines 105-113): remove the
subscriber when present (Python list.remove drops the first occurrence),
then unregister callbacks when the subscriber list is empty. -/
def notifySubscriberRemoved (st : MayaCallbackState) (subscriber : Nat) : MayaCallbackState :=
  let st1 :=
    if subscriber ∈ st.subscribers then { st with subscribers := st.subscribers.erase subscriber }
    else st
  if st1.subscribers.isEmpty then unregisterMayaCallbacks st1 else st1

/-- A call on the dispatcher public interface. -/
inductive SubscriberOp where
  | add (s : Nat)
  | remove (s : Nat)
  deriving DecidableEq, Repr

/-- Run a sequence of notifySubscriberAdded / notifySubscriberRemoved calls
from construction. -/
def runSubscriberOps (numCallbacks : Nat) (ops : List SubscriberOp) : MayaCallbackState :=
  ops.foldl
    (fun st op =>
      match op with
      | .add s => notifySubscriberAdded numCallbacks st s
      | .remove s => notifySubscriberRemoved st s)
    initialCallbackState

/-- The inductive invariant of MayaCallbackEvents: callbacks are registered
exactly when the subscriber list is non-empty, the host side holds exactly
the stored callback IDs, an unregistered dispatcher stores no IDs, and the
subscriber list has no duplicates. -/
def callbackInvariant (st : MayaCallbackState) : Prop :=
  (st.areMayaCallbacksRegistered = true ↔ st.subscribers ≠ []) ∧
  st.hostCallbacks = st.callbackIDs ∧
  (st.areMayaCallbacksRegistered = false → st.callbackIDs = []) ∧
  st.subscribers.Nodup

/-! ## nodes.py : setConstraintLocked (C8)

setConstraintLocked (nodes.py lines 401-420) builds a list of attribute
names (nodeState, plus the scale-constraint offset attrs or the
parent-constraint per-target offset attrs) and sets the locked flag of each
named attribute to the given value.
-/

/-- The node type of a constraint, as tested by the isinstance checks in
setConstraintLocked (pm.nt.ScaleConstraint / pm.nt.ParentConstraint; any
other constraint type falls through both checks). -/
inductive ConstraintKind where
  | scaleConstraint
  | parentConstraint
  | otherConstraint
  deriving DecidableEq, Repr

/-- A constraint node: its type, the existing indices of its target array
(constraint.target.getArrayIndices()), and per-attribute locked flags and
values keyed by attribute name. -/
structure ConstraintNode where
  kind : ConstraintKind
  targetIndices : List Nat
  lockedAttrs : String → Bool
  attrValues : String → ℚ

/-- The six per-target attribute names added for a ParentConstraint target
index (nodes.py lines 414-418, translate X Y Z then rotate X Y Z). -/
def parentTargetOffsetAttrs (i : Nat) : List String :=
  ["target[" ++ toString i ++ "].targetOffsetTranslateX",
   "target[" ++ toString i ++ "].targetOffsetTranslateY",
   "target[" ++ toString i ++ "].targetOffsetTranslateZ",
   "target[" ++ toString i ++ "].targetOffsetRotateX",
   "target[" ++ toString i ++ "].targetOffsetRotateY",
   "target[" ++ toString i ++ "].targetOffsetRotateZ"]

/-- The attrs list built by setConstraintLocked (nodes.py lines 409-418). -/
def constraintLockAttrNames (c : ConstraintNode) : List String :=
  "nodeState" ::
    (match c.kind with
     | .scaleConstraint => ["offsetX", "offsetY", "offsetZ"]
     | .parentConstraint => c.targetIndices.flatMap parentTargetOffsetAttrs
     | .otherConstraint => [])

/-- Maya Attribute.setLocked: sets the locked flag of exactly the named
attribute, leaving every other flag and all values untouched. -/
def setAttrLocked (locks : String → Bool) (name : String) (locked : Bool) : String → Bool :=
  fun a => if a = name then locked else locks a

/-- Embedding of setConstraintLocked: lock or unlock each attribute in the
attrs list (nodes.py lines 419-420). -/
def setConstraintLocked (c : ConstraintNode) (locked : Bool) : ConstraintNode :=
  { c with
    lockedAttrs :=
      (constraintLockAttrNames c).foldl (fun st a => setAttrLocked st a locked) c.lockedAttrs }

/-! ## views/core.py : BlueprintUIModel.addSubscriber (C1)

BlueprintUIModel.addSubscriber (views/core.py lines 233-255) and
_subscribeToBlueprintNodeChanges (lines 221-226) call methods and events on
the shared dispatchers:

    lifeEvents.addSubscriber(self)
    changeEvents.addSubscriber(self)
    changeEvents.onBlueprintNodeChanged.appendUnique(...)

The dispatcher classes in events.py define notifySubscriberAdded /
notifySubscriberRemoved and the event onBlueprintChanged; we record their
class and instance attribute names and model each attribute access as a
lookup that raises AttributeError when the name is absent.
-/

/-- Attribute names available on a MayaCallbackEvents instance: the instance
attributes set in MayaCallbackEvents.init (events.py lines 54-61) and
the methods defined in the class body (lines 66-113). -/
def mayaCallbackEventsAttrs : List String :=
  ["_areMayaCallbacksRegistered", "_callbackIDs", "_subscribers",
   "_registerMayaCallbacks", "_addMayaCallbacks", "_unregisterMayaCallbacks",
   "notifySubscriberAdded", "notifySubscriberRemoved"]

/-- Attribute names available on a BlueprintLifecycleEvents instance: the
inherited MayaCallbackEvents attributes plus those defined in the class
(events.py lines 118-166). -/
def blueprintLifecycleEventsAttrs : List String :=
  mayaCallbackEventsAttrs ++
    ["INSTANCE", "getShared", "onBlueprintCreated", "onBlueprintDeleted",
     "_onNodeAdded", "_onNodeAddedDeferred", "_onNodeRemoved"]

/-- Attribute names available on a BlueprintChangeEvents instance: the
inherited MayaCallbackEvents attributes plus those defined in the class
(events.py lines 169-220). -/
def blueprintChangeEventsAttrs : List String :=
  mayaCallbackEventsAttrs ++
    ["INSTANCES", "getShared", "cleanupSharedInstances",
     "blueprintNodeName", "onBlueprintChanged", "_onBlueprintAttrChanged"]

/-- Embedding of BlueprintUIModel.addSubscriber (views/core.py 233-255).
modelSubscribers is self._modelSubscribers; blueprintNodeExists is
cmds.objExists(self.blueprintNodeName), which decides whether
BlueprintChangeEvents.getShared returns an instance or None.  Each method
call on a dispatcher is an attribute lookup against the class attribute
table and raises AttributeError when the name is missing; on success the
model returns the updated subscriber list (the trailing blueprint
reload/clear block, lines 248-255, raises nothing). -/
def uiModelAddSubscriber (modelSubscribers : List Nat) (subscriber : Nat)
    (blueprintNodeExists : Bool) : Except PyExn (List Nat) :=
  let subs :=
    if subscriber ∈ modelSubscribers then modelSubscribers
    else modelSubscribers ++ [subscriber]
  if subs.isEmpty then Except.ok subs
  else
    if "addSubscriber" ∈ blueprintLifecycleEventsAttrs then
      if blueprintNodeExists then
        if "addSubscriber" ∈ blueprintChangeEventsAttrs then Except.ok subs
        else Except.error (PyExn.attributeError "BlueprintChangeEvents" "addSubscriber")
      else Except.ok subs
    else Except.error (PyExn.attributeError "BlueprintLifecycleEvents" "addSubscriber")

/-- Embedding of BlueprintUIModel internal method subscribing to blueprint
node changes (views/core.py 221-226).  When the blueprint node exists,
BlueprintChangeEvents.getShared returns a dispatcher and the method reads
changeEvents.onBlueprintNodeChanged and then calls
changeEvents.addSubscriber; when the node does not exist getShared returns
None and the body is skipped. -/
def uiModelSubscribeToBlueprintNodeChanges (blueprintNodeExists : Bool) : Except PyExn Unit :=
  if blueprintNodeExists then
    if "onBlueprintNodeChanged" ∈ blueprintChangeEventsAttrs then
      if "addSubscriber" ∈ blueprintChangeEventsAttrs then Except.ok ()
      else Except.error (PyExn.attributeError "BlueprintChangeEvents" "addSubscriber")
    else Except.error (PyExn.attributeError "BlueprintChangeEvents" "onBlueprintNodeChanged")
  else Except.ok ()

/-! ## nodes.py : affine matrices, getClosestAlignedAxis, areNodesAligned (C7)

Maya matrices use the row-vector convention: a point p transforms as p * M,
and the world matrix of a node is localMatrix * parentWorldMatrix.  We model
the 4x4 homogeneous matrix as its upper-left 3x3 linear block together with
the translation row; the upper-left 3x3 block of a product is then the
product of the blocks.  Entries are rationals: the alignment code only
compares and negates entries, so any ordered field represents it exactly.
-/

/-- The 3x3 linear block of a Maya transformation matrix. -/
abbrev Mat3 := Matrix (Fin 3) (Fin 3) ℚ

/-- A Maya transformation matrix: linear 3x3 block plus translation row. -/
structure AffineMatrix where
  linear : Mat3
  trans : Fin 3 → ℚ
  deriving DecidableEq

/-- Matrix product in the row-vector convention. -/
def AffineMatrix.mul (a b : AffineMatrix) : AffineMatrix :=
  ⟨a.linear * b.linear, Matrix.vecMul a.trans b.linear + b.trans⟩

/-- The identity transformation. -/
def AffineMatrix.one : AffineMatrix := ⟨1, 0⟩

/-- The inverse transformation, via the 3x3 adjugate (meaningful when the
linear block has non-zero determinant). -/
def AffineMatrix.inv (a : AffineMatrix) : AffineMatrix :=
  let li := (a.linear.det)⁻¹ • a.linear.adjugate
  ⟨li, -(Matrix.vecMul a.trans li)⟩

/-- Python 2 cmp: -1, 0 or 1 according to the ordering of the arguments. -/
def pyCmp (x y : ℚ) : Int := if x < y then -1 else if y < x then 1 else 0

/-- Embedding of getClosestAlignedAxis (nodes.py lines 722-740).  The source
loops a over range(3), tracking the value matrix[a][axis] with the largest
absolute value (strictly-greater comparison, so the earliest row is kept on
ties) and its row index, and returns the best row with cmp(bestVal, 0).
Since the loop bound is the literal 3 the fold is unrolled: the first
iteration always takes the bestVal-is-None branch and yields row 0, the
second and third iterations update the best pair on a strictly greater
absolute value. -/
def getClosestAlignedAxis (matrix : AffineMatrix) (axis : Fin 3) : Fin 3 × Int :=
  let v0 := matrix.linear 0 axis
  let v1 := matrix.linear 1 axis
  let v2 := matrix.linear 2 axis
  if |v1| > |v0| then
    if |v2| > |v1| then (2, pyCmp v2 0) else (1, pyCmp v1 0)
  else
    if |v2| > |v0| then (2, pyCmp v2 0) else (0, pyCmp v0 0)

/-- Embedding of getClosestAlignedAxes (nodes.py lines 743-756). -/
def getClosestAlignedAxes (matrix : AffineMatrix) :
    (Fin 3 × Int) × (Fin 3 × Int) × (Fin 3 × Int) :=
  (getClosestAlignedAxis matrix 0, getClosestAlignedAxis matrix 1,
    getClosestAlignedAxis matrix 2)

/-- A transform node as read by areNodesAligned: its world matrix (node.wm)
and world inverse matrix (node.wim), both read from the scene. -/
structure TransformNode where
  wm : AffineMatrix
  wim : AffineMatrix

/-- Embedding of areNodesAligned (nodes.py lines 769-778): compute the
signed axes of nodeA.wm * nodeB.wim closest to x, y, z, and return False
when any index i has axis different from i or sign different from 1. -/
def areNodesAligned (nodeA nodeB : TransformNode) : Bool :=
  let m := nodeA.wm.mul nodeB.wim
  let signedAxes :=
    [getClosestAlignedAxis m 0, getClosestAlignedAxis m 1, getClosestAlignedAxis m 2]
  signedAxes.enum.all fun p => decide ((p.2.1 : Fin 3).val = p.1 ∧ p.2.2 = 1)

/-- Specification predicate for C7: row r is the row whose entry in the
given column has the largest absolute value, taking the earliest such row
on ties. -/
def isEarliestMaxRow (matrix : AffineMatrix) (axis r : Fin 3) : Prop :=
  (∀ a : Fin 3, |matrix.linear a axis| ≤ |matrix.linear r axis|) ∧
  (∀ a : Fin 3, a < r → |matrix.linear a axis| < |matrix.linear r axis|)

/-! ## nodes.py : createOffsetGroup (C6)

createOffsetGroup (nodes.py lines 267-308) is a sequence of host calls:
create a transform, reparent it under the node, zero its local transform,
reparent it beside the node, reparent the node under it and zero the node
local transform including the rotate axis.  We model a Maya transform node
by its local matrix, its rotate axis component, and the world matrix of its
current parent, with the documented host semantics of each call:

  * pm.createNode("transform") yields identity components under the world
    root;
  * setParent keeps the world transform, recomputing the local matrix as
    world * newParentWorldInverse, and leaves the rotate axis attribute
    untouched;
  * pm.xform(objectSpace=True, translation=0, rotation=0, scale=1, shear=0)
    sets those local components, so the local matrix becomes exactly the
    rotate axis contribution; when rotateAxis=0 is also given the local
    matrix becomes the identity.

Pivot components (rotatePivot, scalePivot and their translations) are not
modelled; they are taken at their default zero, where they contribute
nothing to the local matrix.
-/

/-- A Maya transform in the flattened scene model: its local transformation
matrix (which includes the rotate axis contribution), the rotate axis
component itself, and the world matrix of its current parent. -/
structure SceneTransform where
  localMatrix : AffineMatrix
  rotateAxis : Mat3
  parentWorld : AffineMatrix

/-- World matrix of a transform: localMatrix * parentWorld (row-vector
convention). -/
def SceneTransform.world (n : SceneTransform) : AffineMatrix :=
  n.localMatrix.mul n.parentWorld

/-- pm.createNode("transform"): identity components, parented at the world
root. -/
def createTransform : SceneTransform := ⟨AffineMatrix.one, 1, AffineMatrix.one⟩

/-- setParent / pm.parent without -relative: the world transform is kept, so
the local matrix is recomputed against the new parent world matrix; the
rotate axis attribute is not modified. -/
def SceneTransform.setParentKeepWorld (n : SceneTransform)
    (newParentWorld : AffineMatrix) : SceneTransform :=
  ⟨n.world.mul newParentWorld.inv, n.rotateAxis, newParentWorld⟩

/-- pm.xform(objectSpace=True, translation=[0,0,0], rotation=[0,0,0],
scale=[1,1,1], shear=[0,0,0]): with these components the local matrix
reduces to the rotate axis contribution. -/
def SceneTransform.xformResetTRS (n : SceneTransform) : SceneTransform :=
  ⟨⟨n.rotateAxis, 0⟩, n.rotateAxis, n.parentWorld⟩

/-- The same pm.xform call with rotateAxis=[0,0,0] as well: every local
component is reset, so the local matrix is the identity. -/
def SceneTransform.xformResetTRSAndRotateAxis (n : SceneTransform) : SceneTransform :=
  ⟨AffineMatrix.one, 1, n.parentWorld⟩

/-- Embedding of createOffsetGroup (nodes.py lines 267-308): the sequence of
host calls in source order.  Returns the offset transform and the final
state of the node. -/
def createOffsetGroup (node : SceneTransform) : SceneTransform × SceneTransform :=
  let offset0 := createTransform
  let offset1 := offset0.setParentKeepWorld node.world
  let offset2 := offset1.xformResetTRS
  let offset3 := offset2.setParentKeepWorld node.parentWorld
  let node1 := node.setParentKeepWorld offset3.world
  let node2 := node1.xformResetTRSAndRotateAxis
  (offset3, node2)

/-! ## Theorems -/

/-- C3: a BlueprintChangeEvents dispatcher with registered callbacks fires
onBlueprintChanged, passing the node of the source plug, exactly when the
attribute-changed callback reports a plug whose partial name is pyMetaData;
any other plug fires no event. -/
theorem blueprintChangeEvents_fires_iff_pyMetaData (srcPlug : MPlug) (fired : List String) :
    (srcPlug.shortName = "pyMetaData" →
      onBlueprintAttrChanged srcPlug fired = fired ++ [srcPlug.node]) ∧
    (srcPlug.shortName ≠ "pyMetaData" →
      onBlueprintAttrChanged srcPlug fired = fired) := by
  constructor <;> intro h <;> simp [onBlueprintAttrChanged, h]

/-- Witness for C3 at a concrete plug: a pyMetaData change on node
pulse_blueprint fires the event for that node. -/
theorem blueprintChangeEvents_fires_iff_pyMetaData_witness :
    onBlueprintAttrChanged ⟨"pyMetaData", "pulse_blueprint"⟩ [] =
      [] ++ ["pulse_blueprint"] :=
  (blueprintChangeEvents_fires_iff_pyMetaData ⟨"pyMetaData", "pulse_blueprint"⟩ []).1 rfl

/-- C4: for every wrapped function behavior, the wrapper returned by
buttonCommand opens an undo chunk as its first operation and closes it as
its last operation, on the success path and on the exception path alike;
the operations between the open and the close are the ones performed by
func itself plus at most the cmds.error call, so each invocation sits in
exactly one balanced undo chunk. -/
theorem buttonCommand_undo_chunk_balanced (func : FuncBehavior) :
    ∃ mid : List CmdOp,
      (buttonCommandWrapper func).1 =
        CmdOp.undoOpenChunk :: (func.trace ++ mid ++ [CmdOp.undoCloseChunk]) ∧
      CmdOp.undoOpenChunk ∉ mid ∧ CmdOp.undoCloseChunk ∉ mid := by
  cases hr : func.result with
  | ok u => exact ⟨[], by simp [buttonCommandWrapper, hr]⟩
  | error e => exact ⟨[CmdOp.cmdsError e], by simp [buttonCommandWrapper, hr]⟩

/-- C9: SimpleConstrainAction.validate raises BuildActionError exactly when
the leader or the follower is unset (falsy), and returns normally
otherwise. -/
theorem simpleConstrain_validate_iff (a : SimpleConstrainAction) :
    ((∃ e, a.validate = Except.error e) ↔
      pyTruthy a.leader = false ∨ pyTruthy a.follower = false) ∧
    (pyTruthy a.leader = true → pyTruthy a.follower = true →
      a.validate = Except.ok ()) := by
  constructor
  · constructor
    · intro ⟨e, he⟩
      by_cases hl : pyTruthy a.leader
      · by_cases hf : pyTruthy a.follower
        · simp [SimpleConstrainAction.validate, hl, hf] at he
        · exact Or.inr (by simpa using hf)
      · exact Or.inl (by simpa using hl)
    · rintro (hl | hf)
      · exact ⟨PyExn.buildActionError "leader must be set",
          by simp [SimpleConstrainAction.validate, hl]⟩
      · by_cases hl : pyTruthy a.leader
        · exact ⟨PyExn.buildActionError "follower must be set",
            by simp [SimpleConstrainAction.validate, hl, hf]⟩
        · exact ⟨PyExn.buildActionError "leader must be set",
            by simp [SimpleConstrainAction.validate, hl]⟩
  · intro hl hf
    simp [SimpleConstrainAction.validate, hl, hf]

/-- Witness for C9: with both leader and follower set, validate returns
normally. -/
theorem simpleConstrain_validate_iff_witness :
    SimpleConstrainAction.validate ⟨some "ctl_leader", some "ctl_follower"⟩ =
      Except.ok () :=
  (simpleConstrain_validate_iff ⟨some "ctl_leader", some "ctl_follower"⟩).2 rfl rfl

/-- C1 (code bug): BlueprintUIModel.addSubscriber never completes.  After
appending the subscriber the method calls lifeEvents.addSubscriber, but
BlueprintLifecycleEvents defines no attribute named addSubscriber (its
subscription method is notifySubscriberAdded), so Python raises
AttributeError whether or not the blueprint node exists; likewise the
internal subscription method reads changeEvents.onBlueprintNodeChanged,
which BlueprintChangeEvents does not define (its event is
onBlueprintChanged), so it raises AttributeError whenever the node
exists. -/
theorem uiModel_addSubscriber_raises :
    (∀ (ms : List Nat) (s : Nat) (bExists : Bool),
      uiModelAddSubscriber ms s bExists =
        Except.error (PyExn.attributeError "BlueprintLifecycleEvents" "addSubscriber")) ∧
    uiModelSubscribeToBlueprintNodeChanges true =
      Except.error (PyExn.attributeError "BlueprintChangeEvents" "onBlueprintNodeChanged") := by
  constructor
  · intro ms s bExists
    have hmem : "addSubscriber" ∉ blueprintLifecycleEventsAttrs := by decide
    by_cases h : s ∈ ms
    · cases ms with
      | nil => exact absurd h (by simp)
      | cons x xs => simp [uiModelAddSubscriber, h, hmem]
    · simp [uiModelAddSubscriber, h, hmem]
  · rfl

/-- Helper for C2: a node reported as not a Blueprint node by every scene
predicate in a trace is never added to either fired list. -/
theorem lifeTrace_never_fires_aux (n : String) :
    ∀ (trace : List ((String → Bool) × LifeEvent)) (st : LifeState),
      (∀ p ∈ trace, p.1 n = false) →
      n ∉ st.firedCreated → n ∉ st.firedDeleted →
      n ∉ (trace.foldl (fun st p => lifeStep p.1 p.2 st) st).firedCreated ∧
      n ∉ (trace.foldl (fun st p => lifeStep p.1 p.2 st) st).firedDeleted := by
  intro trace
  induction trace with
  | nil => exact fun st _ hc hd => ⟨hc, hd⟩
  | cons p rest ih =>
    intro st hall hc hd
    have hp : p.1 n = false := hall p (List.mem_cons_self p rest)
    have hrest : ∀ q ∈ rest, q.1 n = false := fun q hq => hall q (List.mem_cons_of_mem p hq)
    refine ih (lifeStep p.1 p.2 st) hrest ?_ ?_
    · cases hev : p.2 with
      | nodeAdded m => simpa [lifeStep] using hc
      | nodeRemoved m =>
        by_cases hb : p.1 m
        · simp only [lifeStep, hb, if_true]
          exact hc
        · simpa [lifeStep, hb] using hc
      | deferredTick =>
        simp only [lifeStep, List.mem_append]
        rintro (h | h)
        · exact hc h
        · exact absurd (List.of_mem_filter h) (by simp [hp])
    · cases hev : p.2 with
      | nodeAdded m => simpa [lifeStep] using hd
      | nodeRemoved m =>
        by_cases hb : p.1 m
        · simp only [lifeStep, hb, if_true, List.mem_append]
          rintro (h | h)
          · exact hd h
          · rw [List.mem_singleton] at h
            rw [h] at hp
            simp [hp] at hb
        · simpa [lifeStep, hb] using hd
      | deferredTick => simpa [lifeStep] using hd

/-- C2: while its callbacks are registered, BlueprintLifecycleEvents fires
onBlueprintDeleted synchronously from the node-removed callback exactly when
the removed node is a Blueprint node; the node-added callback fires nothing
immediately, only queueing a deferred check, and onBlueprintCreated fires
only on the deferred-evaluation tick and only for queued nodes that are
Blueprint nodes at that point; a network node that is never a Blueprint node
never triggers either event over any trace. -/
theorem blueprintLifecycleEvents_firing :
    (∀ (scene : String → Bool) (n : String) (st : LifeState),
      (lifeStep scene (.nodeRemoved n) st).firedDeleted =
          st.firedDeleted ++ (if scene n then [n] else []) ∧
      (lifeStep scene (.nodeRemoved n) st).firedCreated = st.firedCreated) ∧
    (∀ (scene : String → Bool) (n : String) (st : LifeState),
      (lifeStep scene (.nodeAdded n) st).firedCreated = st.firedCreated ∧
      (lifeStep scene (.nodeAdded n) st).firedDeleted = st.firedDeleted ∧
      (lifeStep scene (.nodeAdded n) st).deferred = st.deferred ++ [n]) ∧
    (∀ (scene : String → Bool) (st : LifeState),
      (lifeStep scene .deferredTick st).firedCreated =
          st.firedCreated ++ st.deferred.filter scene ∧
      (lifeStep scene .deferredTick st).firedDeleted = st.firedDeleted) ∧
    (∀ (trace : List ((String → Bool) × LifeEvent)) (n : String),
      (∀ p ∈ trace, p.1 n = false) →
      n ∉ (runLifeTrace trace).firedCreated ∧ n ∉ (runLifeTrace trace).firedDeleted) := by
  refine ⟨fun scene n st => ?_, fun scene n st => ?_, fun scene st => ?_, fun trace n h => ?_⟩
  · by_cases hb : scene n <;> simp [lifeStep, hb]
  · simp [lifeStep]
  · simp [lifeStep]
  · exact lifeTrace_never_fires_aux n trace initialLifeState h
      (by simp [initialLifeState]) (by simp [initialLifeState])

/-- Witness for C2: over a concrete trace in which the scene never reports
the network node net1 as a Blueprint node, neither event fires for it. -/
theorem blueprintLifecycleEvents_firing_witness :
    "net1" ∉ (runLifeTrace
        [(fun _ => false, LifeEvent.nodeAdded "net1"),
         (fun _ => false, LifeEvent.deferredTick),
         (fun _ => false, LifeEvent.nodeRemoved "net1")]).firedCreated ∧
    "net1" ∉ (runLifeTrace
        [(fun _ => false, LifeEvent.nodeAdded "net1"),
         (fun _ => false, LifeEvent.deferredTick),
         (fun _ => false, LifeEvent.nodeRemoved "net1")]).firedDeleted :=
  blueprintLifecycleEvents_firing.2.2.2 _ "net1" (by intro p hp; fin_cases hp <;> rfl)

/-- Helper: a non-empty list has isEmpty false. -/
theorem isEmpty_false_of_ne_nil {l : List Nat} (h : l ≠ []) : l.isEmpty = false := by
  cases l with
  | nil => exact absurd rfl h
  | cons x xs => rfl

/-- Helper for C10: erasing, in order, every element of a list from that
same list leaves the empty list (the unregister loop removes exactly the
stored callback IDs from the host). -/
theorem foldl_erase_self : ∀ l : List Nat, l.foldl (fun h cbId => h.erase cbId) l = []
  | [] => rfl
  | x :: xs => by
      have h1 : (x :: xs).erase x = xs := List.erase_cons_head x xs
      calc (x :: xs).foldl (fun h cbId => h.erase cbId) (x :: xs)
          = xs.foldl (fun h cbId => h.erase cbId) ((x :: xs).erase x) := rfl
        _ = xs.foldl (fun h cbId => h.erase cbId) xs := by rw [h1]
        _ = [] := foldl_erase_self xs

/-- The invariant holds for a freshly constructed dispatcher. -/
theorem callbackInvariant_init : callbackInvariant initialCallbackState := by
  simp [callbackInvariant, initialCallbackState]

/-- notifySubscriberAdded preserves the dispatcher invariant. -/
theorem callbackInvariant_add (k : Nat) (st : MayaCallbackState) (s : Nat)
    (h : callbackInvariant st) : callbackInvariant (notifySubscriberAdded k st s) := by
  obtain ⟨hreg, hhost, hcb, hnd⟩ := h
  by_cases hs : s ∈ st.subscribers
  · have hne : st.subscribers ≠ [] := List.ne_nil_of_mem hs
    have hr : st.areMayaCallbacksRegistered = true := hreg.mpr hne
    simp only [notifySubscriberAdded, if_pos hs, isEmpty_false_of_ne_nil hne,
      Bool.false_eq_true, if_false, registerMayaCallbacks, hr, if_true]
    exact ⟨hreg, hhost, hcb, hnd⟩
  · have hne : st.subscribers ++ [s] ≠ [] := by simp
    by_cases hr : st.areMayaCallbacksRegistered
    · simp only [notifySubscriberAdded, if_neg hs, isEmpty_false_of_ne_nil hne,
        Bool.false_eq_true, if_false, registerMayaCallbacks, hr, if_true]
      refine ⟨by simp [hr], hhost, fun hfalse => by simp at hfalse, ?_⟩
      simp [List.nodup_append, hnd, hs]
    · have hsub : st.subscribers = [] := by
        by_contra hx
        exact hr (hreg.mpr hx)
      have hcbnil : st.callbackIDs = [] := hcb (by simpa using hr)
      have hhostnil : st.hostCallbacks = [] := by rw [hhost, hcbnil]
      simp only [notifySubscriberAdded, if_neg hs, isEmpty_false_of_ne_nil hne,
        Bool.false_eq_true, if_false, registerMayaCallbacks]
      rw [if_neg (by simp [hr])]
      refine ⟨by simp, by simp [hhostnil], by simp, ?_⟩
      simp [hsub]

/-- notifySubscriberRemoved preserves the dispatcher invariant. -/
theorem callbackInvariant_remove (st : MayaCallbackState) (s : Nat)
    (h : callbackInvariant st) : callbackInvariant (notifySubscriberRemoved st s) := by
  obtain ⟨hreg, hhost, hcb, hnd⟩ := h
  by_cases hs : s ∈ st.subscribers
  · have hne : st.subscribers ≠ [] := List.ne_nil_of_mem hs
    have hr : st.areMayaCallbacksRegistered = true := hreg.mpr hne
    have hndE : (st.subscribers.erase s).Nodup := hnd.erase s
    by_cases hemp : (st.subscribers.erase s).isEmpty
    · have herased : st.subscribers.erase s = [] := by
        cases hE : st.subscribers.erase s with
        | nil => rfl
        | cons y ys => rw [hE] at hemp; exact absurd hemp (by simp)
      simp only [notifySubscriberRemoved, if_pos hs, hemp, if_true,
        unregisterMayaCallbacks, hr]
      refine ⟨by simp [herased], ?_, fun _ => rfl, by simp [herased]⟩
      show List.foldl (fun h cbId => h.erase cbId) st.hostCallbacks st.callbackIDs = []
      rw [hhost]
      exact foldl_erase_self st.callbackIDs
    · have herased : st.subscribers.erase s ≠ [] := by
        intro hx
        rw [hx] at hemp
        exact hemp rfl
      simp only [notifySubscriberRemoved, if_pos hs, hemp, Bool.false_eq_true, if_false]
      exact ⟨by simp [hr, herased], hhost, fun hfalse => by simp [hr] at hfalse, hndE⟩
  · by_cases hemp : st.subscribers.isEmpty
    · have hsub : st.subscribers = [] := by
        cases hE : st.subscribers with
        | nil => rfl
        | cons y ys => rw [hE] at hemp; exact absurd hemp (by simp)
      have hr : st.areMayaCallbacksRegistered = false := by
        by_contra hx
        have := hreg.mp (by simpa using hx)
        exact this hsub
      simp only [notifySubscriberRemoved, if_neg hs, hemp, if_true,
        unregisterMayaCallbacks, hr]
      rw [if_neg (by simp)]
      exact ⟨hreg, hhost, hcb, hnd⟩
    · simp only [notifySubscriberRemoved, if_neg hs, hemp, Bool.false_eq_true, if_false]
      exact ⟨hreg, hhost, hcb, hnd⟩

/-- The invariant holds after any sequence of subscriber notifications. -/
theorem callbackInvariant_run (k : Nat) (ops : List SubscriberOp) :
    callbackInvariant (runSubscriberOps k ops) := by
  suffices h : ∀ st : MayaCallbackState, callbackInvariant st →
      callbackInvariant (ops.foldl
        (fun st op =>
          match op with
          | .add s => notifySubscriberAdded k st s
          | .remove s => notifySubscriberRemoved st s) st) by
    exact h initialCallbackState callbackInvariant_init
  induction ops with
  | nil => exact fun st hst => hst
  | cons op rest ih =>
    intro st hst
    cases op with
    | add s => exact ih _ (callbackInvariant_add k st s hst)
    | remove s => exact ih _ (callbackInvariant_remove st s hst)

/-- C10: every MayaCallbackEvents dispatcher keeps host callbacks registered
exactly when its subscriber list is non-empty.  After any sequence of
notifySubscriberAdded and notifySubscriberRemoved calls from construction:
callbacks are registered iff there are subscribers; the same subscriber is
stored at most once and adding a stored subscriber again is a no-op (no
second registration); once the last subscriber is removed the stored
callback ID list is empty and every ID has been removed from the host; and
the host table always holds exactly the stored IDs. -/
theorem mayaCallbackEvents_invariant (k : Nat) (ops : List SubscriberOp) :
    ((runSubscriberOps k ops).areMayaCallbacksRegistered = true ↔
      (runSubscriberOps k ops).subscribers ≠ []) ∧
    (runSubscriberOps k ops).subscribers.Nodup ∧
    (∀ s ∈ (runSubscriberOps k ops).subscribers,
      notifySubscriberAdded k (runSubscriberOps k ops) s = runSubscriberOps k ops) ∧
    ((runSubscriberOps k ops).subscribers = [] →
      (runSubscriberOps k ops).callbackIDs = [] ∧
      (runSubscriberOps k ops).hostCallbacks = []) ∧
    (runSubscriberOps k ops).hostCallbacks = (runSubscriberOps k ops).callbackIDs := by
  obtain ⟨hreg, hhost, hcb, hnd⟩ := callbackInvariant_run k ops
  refine ⟨hreg, hnd, ?_, ?_, hhost⟩
  · intro s hs
    have hne : (runSubscriberOps k ops).subscribers ≠ [] := List.ne_nil_of_mem hs
    have hr := hreg.mpr hne
    simp [notifySubscriberAdded, hs, isEmpty_false_of_ne_nil hne,
      registerMayaCallbacks, hr]
  · intro hsub
    have hr : (runSubscriberOps k ops).areMayaCallbacksRegistered = false := by
      by_contra hx
      exact hreg.mp (by simpa using hx) hsub
    have hcbnil := hcb hr
    exact ⟨hcbnil, by rw [hhost, hcbnil]⟩

/-- Witness for C10: after adding two subscribers and removing both, the
stored callback ID list and the host registration table are both empty. -/
theorem mayaCallbackEvents_invariant_witness :
    (runSubscriberOps 2 [SubscriberOp.add 1, SubscriberOp.add 2,
        SubscriberOp.remove 1, SubscriberOp.remove 2]).callbackIDs = [] ∧
    (runSubscriberOps 2 [SubscriberOp.add 1, SubscriberOp.add 2,
        SubscriberOp.remove 1, SubscriberOp.remove 2]).hostCallbacks = [] :=
  (mayaCallbackEvents_invariant 2 [SubscriberOp.add 1, SubscriberOp.add 2,
      SubscriberOp.remove 1, SubscriberOp.remove 2]).2.2.2.1 (by decide)

/-- Helper for C8: folding setAttrLocked over a list of names updates
exactly the named attributes. -/
theorem foldl_setAttrLocked (names : List String) (locks : String → Bool)
    (b : Bool) (a : String) :
    (names.foldl (fun st nm => setAttrLocked st nm b) locks) a =
      if a ∈ names then b else locks a := by
  induction names generalizing locks with
  | nil => simp
  | cons x xs ih =>
    simp only [List.foldl_cons]
    rw [ih]
    by_cases hx : a ∈ xs
    · simp [hx]
    · by_cases hax : a = x
      · simp [setAttrLocked, hax, hx]
      · simp [setAttrLocked, hax, hx]

/-- C8: setConstraintLocked sets the locked flag of exactly the attributes
in its computed list to the given value and touches nothing else: every
other locked flag, all attribute values, the constraint kind and its target
indices are unchanged; and the computed list consists of nodeState, plus
offsetX/Y/Z for a ScaleConstraint, or the per-target translate and rotate
offset attributes for every existing target index of a ParentConstraint. -/
theorem setConstraintLocked_locks_exactly (c : ConstraintNode) (locked : Bool) :
    (∀ a : String,
      (setConstraintLocked c locked).lockedAttrs a =
        if a ∈ constraintLockAttrNames c then locked else c.lockedAttrs a) ∧
    (setConstraintLocked c locked).attrValues = c.attrValues ∧
    (setConstraintLocked c locked).kind = c.kind ∧
    (setConstraintLocked c locked).targetIndices = c.targetIndices ∧
    (∀ a : String, a ∈ constraintLockAttrNames c ↔
      a = "nodeState" ∨
      (c.kind = ConstraintKind.scaleConstraint ∧ a ∈ ["offsetX", "offsetY", "offsetZ"]) ∨
      (c.kind = ConstraintKind.parentConstraint ∧
        ∃ i ∈ c.targetIndices, a ∈ parentTargetOffsetAttrs i)) := by
  refine ⟨fun a => ?_, rfl, rfl, rfl, fun a => ?_⟩
  · simp only [setConstraintLocked]
    exact foldl_setAttrLocked (constraintLockAttrNames c) c.lockedAttrs locked a
  · cases hk : c.kind with
    | scaleConstraint => simp [constraintLockAttrNames, hk]
    | parentConstraint => simp [constraintLockAttrNames, hk, List.mem_flatMap]
    | otherConstraint => simp [constraintLockAttrNames, hk]

/-- Witness for C8 at a concrete parent constraint with target indices 0 and
2: the locked flag of a per-target rotate offset attribute follows the
membership test. -/
theorem setConstraintLocked_locks_exactly_witness :
    (setConstraintLocked
        ⟨ConstraintKind.parentConstraint, [0, 2], fun _ => false, fun _ => 0⟩
        true).lockedAttrs "target[2].targetOffsetRotateY" =
      if "target[2].targetOffsetRotateY" ∈ constraintLockAttrNames
          ⟨ConstraintKind.parentConstraint, [0, 2], fun _ => false, fun _ => 0⟩
        then true
        else (fun _ : String => false) "target[2].targetOffsetRotateY" :=
  (setConstraintLocked_locks_exactly
    ⟨ConstraintKind.parentConstraint, [0, 2], fun _ => false, fun _ => 0⟩ true).1
    "target[2].targetOffsetRotateY"

/-- Helper for C7: pyCmp against zero returns 1 exactly for positive
values. -/
theorem pyCmp_zero_eq_one_iff (x : ℚ) : pyCmp x 0 = 1 ↔ 0 < x := by
  unfold pyCmp
  split_ifs with h1 h2
  · constructor
    · intro h
      exact absurd h (by decide)
    · intro h
      exact absurd h (by linarith)
  · simp [h2]
  · constructor
    · intro h
      exact absurd h (by decide)
    · intro h
      exact absurd h h2


/-- Helper for C7: getClosestAlignedAxis returns the earliest row with the
largest absolute entry in the requested column, together with the sign of
that entry. -/
theorem getClosestAlignedAxis_spec (m : AffineMatrix) (axis : Fin 3) :
    isEarliestMaxRow m axis (getClosestAlignedAxis m axis).1 ∧
    (getClosestAlignedAxis m axis).2 =
      pyCmp (m.linear (getClosestAlignedAxis m axis).1 axis) 0 := by
  unfold getClosestAlignedAxis isEarliestMaxRow
  by_cases h1 : |m.linear 1 axis| > |m.linear 0 axis|
  · by_cases h2 : |m.linear 2 axis| > |m.linear 1 axis|
    · simp only [h1, h2, if_true]
      refine ⟨⟨?_, ?_⟩, trivial⟩
      · intro a
        fin_cases a
        · show |m.linear 0 axis| ≤ |m.linear 2 axis|
          linarith
        · show |m.linear 1 axis| ≤ |m.linear 2 axis|
          linarith
        · show |m.linear 2 axis| ≤ |m.linear 2 axis|
          exact le_refl _
      · intro a ha
        fin_cases a
        · show |m.linear 0 axis| < |m.linear 2 axis|
          linarith
        · show |m.linear 1 axis| < |m.linear 2 axis|
          linarith
        · exact absurd ha (by decide)
    · simp only [h1, h2, if_true, if_false]
      refine ⟨⟨?_, ?_⟩, trivial⟩
      · intro a
        fin_cases a
        · show |m.linear 0 axis| ≤ |m.linear 1 axis|
          linarith
        · show |m.linear 1 axis| ≤ |m.linear 1 axis|
          exact le_refl _
        · show |m.linear 2 axis| ≤ |m.linear 1 axis|
          exact le_of_not_lt h2
      · intro a ha
        fin_cases a
        · show |m.linear 0 axis| < |m.linear 1 axis|
          exact h1
        · exact absurd ha (by decide)
        · exact absurd ha (by decide)
  · by_cases h2 : |m.linear 2 axis| > |m.linear 0 axis|
    · simp only [h1, h2, if_true, if_false]
      refine ⟨⟨?_, ?_⟩, trivial⟩
      · intro a
        fin_cases a
        · show |m.linear 0 axis| ≤ |m.linear 2 axis|
          linarith
        · show |m.linear 1 axis| ≤ |m.linear 2 axis|
          have hx := le_of_not_lt h1
          linarith
        · show |m.linear 2 axis| ≤ |m.linear 2 axis|
          exact le_refl _
      · intro a ha
        fin_cases a
        · show |m.linear 0 axis| < |m.linear 2 axis|
          exact h2
        · show |m.linear 1 axis| < |m.linear 2 axis|
          have hx := le_of_not_lt h1
          linarith
        · exact absurd ha (by decide)
    · simp only [h1, h2, if_false]
      refine ⟨⟨?_, ?_⟩, trivial⟩
      · intro a
        fin_cases a
        · show |m.linear 0 axis| ≤ |m.linear 0 axis|
          exact le_refl _
        · show |m.linear 1 axis| ≤ |m.linear 0 axis|
          exact le_of_not_lt h1
        · show |m.linear 2 axis| ≤ |m.linear 0 axis|
          exact le_of_not_lt h2
      · intro a ha
        fin_cases a
        · exact absurd ha (by decide)
        · exact absurd ha (by decide)
        · exact absurd ha (by decide)

/-- Helper for C7: the earliest row with the largest absolute entry is
unique. -/
theorem isEarliestMaxRow_unique (m : AffineMatrix) (axis r1 r2 : Fin 3)
    (h1 : isEarliestMaxRow m axis r1) (h2 : isEarliestMaxRow m axis r2) :
    r1 = r2 := by
  rcases lt_trichotomy r1 r2 with h | h | h
  · have ha := h2.2 r1 h
    have hb := h1.1 r2
    linarith
  · exact h
  · have ha := h1.2 r2 h
    have hb := h2.1 r1
    linarith

/-- C7: areNodesAligned returns True exactly when, in the matrix of nodeA
relative to nodeB (nodeA world matrix times nodeB world inverse matrix),
for each column i the row with the largest absolute entry in that column
(earliest such row on ties) is row i itself with a strictly positive entry;
and getClosestAlignedAxis computes exactly that maximizing row and the sign
of its entry. -/
theorem areNodesAligned_iff_axes_aligned (nodeA nodeB : TransformNode) :
    (areNodesAligned nodeA nodeB = true ↔
      ∀ i : Fin 3,
        isEarliestMaxRow (nodeA.wm.mul nodeB.wim) i i ∧
        0 < (nodeA.wm.mul nodeB.wim).linear i i) ∧
    (∀ (m : AffineMatrix) (i : Fin 3),
      isEarliestMaxRow m i (getClosestAlignedAxis m i).1 ∧
      (getClosestAlignedAxis m i).2 =
        pyCmp (m.linear (getClosestAlignedAxis m i).1 i) 0) := by
  refine ⟨?_, getClosestAlignedAxis_spec⟩
  have hall : areNodesAligned nodeA nodeB = true ↔
      ∀ i : Fin 3,
        (getClosestAlignedAxis (nodeA.wm.mul nodeB.wim) i).1 = i ∧
        (getClosestAlignedAxis (nodeA.wm.mul nodeB.wim) i).2 = 1 := by
    unfold areNodesAligned
    simp only [List.enum, List.enumFrom, List.all_cons, List.all_nil,
      Bool.and_eq_true, decide_eq_true_eq, Bool.and_true]
    constructor
    · rintro ⟨⟨hv0, hs0⟩, ⟨hv1, hs1⟩, hv2, hs2⟩ i
      fin_cases i
      · exact ⟨Fin.ext hv0, hs0⟩
      · exact ⟨Fin.ext hv1, hs1⟩
      · exact ⟨Fin.ext hv2, hs2⟩
    · intro h
      obtain ⟨ha0, hs0⟩ := h 0
      obtain ⟨ha1, hs1⟩ := h 1
      obtain ⟨ha2, hs2⟩ := h 2
      exact ⟨⟨by rw [ha0]; rfl, hs0⟩, ⟨by rw [ha1]; rfl, hs1⟩, by rw [ha2]; rfl, hs2⟩
  rw [hall]
  constructor
  · intro h i
    obtain ⟨hax, hsg⟩ := h i
    obtain ⟨hsp, hcm⟩ := getClosestAlignedAxis_spec (nodeA.wm.mul nodeB.wim) i
    rw [hax] at hsp hcm
    exact ⟨hsp, (pyCmp_zero_eq_one_iff _).mp (hcm.symm.trans hsg)⟩
  · intro h i
    obtain ⟨hsp, hcm⟩ := getClosestAlignedAxis_spec (nodeA.wm.mul nodeB.wim) i
    have hax : (getClosestAlignedAxis (nodeA.wm.mul nodeB.wim) i).1 = i :=
      isEarliestMaxRow_unique (nodeA.wm.mul nodeB.wim) i _ _ hsp (h i).1
    refine ⟨hax, ?_⟩
    rw [hax] at hcm
    rw [hcm]
    exact (pyCmp_zero_eq_one_iff _).mpr (h i).2

/-- Two affine matrices with equal parts are equal. -/
theorem AffineMatrix.ext_parts {a b : AffineMatrix} (hl : a.linear = b.linear)
    (ht : a.trans = b.trans) : a = b := by
  cases a
  cases b
  cases hl
  cases ht
  rfl

/-- The identity transformation is a left unit for the affine product. -/
theorem AffineMatrix.one_mul_eq (a : AffineMatrix) : AffineMatrix.one.mul a = a := by
  apply AffineMatrix.ext_parts
  · show (1 : Mat3) * a.linear = a.linear
    exact Matrix.one_mul a.linear
  · show Matrix.vecMul (0 : Fin 3 → ℚ) a.linear + a.trans = a.trans
    rw [Matrix.zero_vecMul, zero_add]

/-- The identity transformation is a right unit for the affine product. -/
theorem AffineMatrix.mul_one_eq (a : AffineMatrix) : a.mul AffineMatrix.one = a := by
  apply AffineMatrix.ext_parts
  · show a.linear * (1 : Mat3) = a.linear
    exact Matrix.mul_one a.linear
  · show Matrix.vecMul a.trans (1 : Mat3) + 0 = a.trans
    rw [Matrix.vecMul_one, add_zero]

/-- The affine product is associative. -/
theorem AffineMatrix.mul_assoc_eq (a b c : AffineMatrix) :
    (a.mul b).mul c = a.mul (b.mul c) := by
  apply AffineMatrix.ext_parts
  · show a.linear * b.linear * c.linear = a.linear * (b.linear * c.linear)
    exact Matrix.mul_assoc a.linear b.linear c.linear
  · show Matrix.vecMul (Matrix.vecMul a.trans b.linear + b.trans) c.linear + c.trans =
      Matrix.vecMul a.trans (b.linear * c.linear) + (Matrix.vecMul b.trans c.linear + c.trans)
    rw [Matrix.add_vecMul, Matrix.vecMul_vecMul, add_assoc]

/-- An affine matrix with invertible linear block cancels with its inverse
on the right. -/
theorem AffineMatrix.mul_inv_cancel_eq (a : AffineMatrix) (h : a.linear.det ≠ 0) :
    a.mul a.inv = AffineMatrix.one := by
  apply AffineMatrix.ext_parts
  · show a.linear * ((a.linear.det)⁻¹ • a.linear.adjugate) = 1
    rw [Matrix.mul_smul, Matrix.mul_adjugate, smul_smul, inv_mul_cancel₀ h, one_smul]
  · show Matrix.vecMul a.trans ((a.linear.det)⁻¹ • a.linear.adjugate) +
        -(Matrix.vecMul a.trans ((a.linear.det)⁻¹ • a.linear.adjugate)) = 0
    exact add_neg_cancel _

/-- An affine matrix with invertible linear block cancels with its inverse
on the left. -/
theorem AffineMatrix.inv_mul_cancel_eq (a : AffineMatrix) (h : a.linear.det ≠ 0) :
    a.inv.mul a = AffineMatrix.one := by
  have hlin : ((a.linear.det)⁻¹ • a.linear.adjugate) * a.linear = 1 := by
    rw [Matrix.smul_mul, Matrix.adjugate_mul, smul_smul, inv_mul_cancel₀ h, one_smul]
  apply AffineMatrix.ext_parts
  · exact hlin
  · show Matrix.vecMul (-(Matrix.vecMul a.trans ((a.linear.det)⁻¹ • a.linear.adjugate)))
        a.linear + a.trans = 0
    rw [Matrix.neg_vecMul, Matrix.vecMul_vecMul, hlin, Matrix.vecMul_one, neg_add_cancel]

/-- C6: for a node whose parent world matrix is invertible, createOffsetGroup
returns an offset transform that carries the node old local matrix (its
transformations, rotate axis included, absorbed into the offset) and is
parented where the node old parent was, while the node ends up parented
under the offset with identity local matrix, zeroed rotate axis, and an
unchanged world transform. -/
theorem createOffsetGroup_correct (node : SceneTransform)
    (hp : node.parentWorld.linear.det ≠ 0) :
    (createOffsetGroup node).1.localMatrix = node.localMatrix ∧
    (createOffsetGroup node).1.parentWorld = node.parentWorld ∧
    (createOffsetGroup node).2.localMatrix = AffineMatrix.one ∧
    (createOffsetGroup node).2.rotateAxis = 1 ∧
    (createOffsetGroup node).2.parentWorld = (createOffsetGroup node).1.world ∧
    (createOffsetGroup node).2.world = node.world := by
  have hOffLocal : (createOffsetGroup node).1.localMatrix = node.localMatrix := by
    show (AffineMatrix.one.mul node.world).mul node.parentWorld.inv = node.localMatrix
    rw [AffineMatrix.one_mul_eq]
    show (node.localMatrix.mul node.parentWorld).mul node.parentWorld.inv = node.localMatrix
    rw [AffineMatrix.mul_assoc_eq, AffineMatrix.mul_inv_cancel_eq node.parentWorld hp,
      AffineMatrix.mul_one_eq]
  refine ⟨hOffLocal, rfl, rfl, rfl, rfl, ?_⟩
  show AffineMatrix.one.mul (createOffsetGroup node).1.world = node.world
  rw [AffineMatrix.one_mul_eq]
  show (createOffsetGroup node).1.localMatrix.mul node.parentWorld = node.world
  rw [hOffLocal]
  rfl

/-- Witness for C6 at a node with identity local transform under the world
root: the node ends with identity local matrix and unchanged world
transform. -/
theorem createOffsetGroup_correct_witness :
    (createOffsetGroup ⟨AffineMatrix.one, 1, AffineMatrix.one⟩).2.localMatrix =
        AffineMatrix.one ∧
    (createOffsetGroup ⟨AffineMatrix.one, 1, AffineMatrix.one⟩).2.world =
      SceneTransform.world ⟨AffineMatrix.one, 1, AffineMatrix.one⟩ :=
  ⟨(createOffsetGroup_correct ⟨AffineMatrix.one, 1, AffineMatrix.one⟩
      (by simp [AffineMatrix.one])).2.2.1,
   (createOffsetGroup_correct ⟨AffineMatrix.one, 1, AffineMatrix.one⟩
      (by simp [AffineMatrix.one])).2.2.2.2.2⟩
